import Mathlib

/-
  Verification development for the technical-analysis derivation engine
  (instock core): `instock/core/indicator/calculate_indicator.py` and
  `instock/core/pattern/pattern_recognitions.py`.

  Numeric model: IEEE double values are shallowly embedded as `EF`, a
  rational number extended with `nan`, `pinf` (+Infinity) and `ninf`
  (-Infinity).  The arithmetic, comparison and equality operations follow
  IEEE semantics on these values (in particular `nan` is not equal to,
  less than, or greater than anything, including itself), with exact
  rational arithmetic in place of rounded binary arithmetic.
-/

/-- Extended float: a rational, or one of the IEEE special values. -/
inductive EF where
  | fin : ℚ → EF
  | pinf : EF
  | ninf : EF
  | nan : EF
deriving DecidableEq, Repr

namespace EF

/-- True exactly on `nan` (numpy `isnan`). -/
def isNaN : EF → Bool
  | nan => true
  | _ => false

/-- True exactly on the two infinities (numpy `isinf`). -/
def isInf : EF → Bool
  | pinf => true
  | ninf => true
  | _ => false

/-- True exactly on finite values. -/
def isFinite : EF → Bool
  | fin _ => true
  | _ => false

/-- IEEE addition. -/
def add : EF → EF → EF
  | fin a, fin b => fin (a + b)
  | nan, _ => nan
  | _, nan => nan
  | pinf, ninf => nan
  | ninf, pinf => nan
  | pinf, _ => pinf
  | _, pinf => pinf
  | ninf, _ => ninf
  | _, ninf => ninf

/-- IEEE negation. -/
def neg : EF → EF
  | fin a => fin (-a)
  | pinf => ninf
  | ninf => pinf
  | nan => nan

/-- IEEE subtraction. -/
def sub (a b : EF) : EF := add a (neg b)

/-- Product of a finite value with +Infinity. -/
def mulFinPinf (a : ℚ) : EF :=
  if a = 0 then nan else if 0 < a then pinf else ninf

/-- Product of a finite value with -Infinity. -/
def mulFinNinf (a : ℚ) : EF :=
  if a = 0 then nan else if 0 < a then ninf else pinf

/-- IEEE multiplication. -/
def mul : EF → EF → EF
  | nan, _ => nan
  | _, nan => nan
  | fin a, fin b => fin (a * b)
  | fin a, pinf => mulFinPinf a
  | pinf, fin a => mulFinPinf a
  | fin a, ninf => mulFinNinf a
  | ninf, fin a => mulFinNinf a
  | pinf, pinf => pinf
  | ninf, ninf => pinf
  | pinf, ninf => ninf
  | ninf, pinf => ninf

/-- IEEE division (numpy semantics with `divide='ignore', invalid='ignore'`:
finite/0 is a signed infinity, 0/0 is `nan`). -/
def div : EF → EF → EF
  | nan, _ => nan
  | _, nan => nan
  | fin a, fin b =>
      if b = 0 then (if a = 0 then nan else if 0 < a then pinf else ninf)
      else fin (a / b)
  | fin _, pinf => fin 0
  | fin _, ninf => fin 0
  | pinf, fin b => if 0 ≤ b then pinf else ninf
  | ninf, fin b => if 0 ≤ b then ninf else pinf
  | pinf, pinf => nan
  | pinf, ninf => nan
  | ninf, pinf => nan
  | ninf, ninf => nan

/-- IEEE equality test (Python `==` on floats): `nan` equals nothing. -/
def beq : EF → EF → Bool
  | fin a, fin b => decide (a = b)
  | pinf, pinf => true
  | ninf, ninf => true
  | _, _ => false

/-- IEEE strict less-than: false whenever `nan` is involved. -/
def lt : EF → EF → Bool
  | fin a, fin b => decide (a < b)
  | fin _, pinf => true
  | ninf, fin _ => true
  | ninf, pinf => true
  | _, _ => false

/-- IEEE less-or-equal. -/
def le (a b : EF) : Bool := beq a b || lt a b

/-- IEEE strict greater-than. -/
def gt (a b : EF) : Bool := lt b a

/-- numpy elementwise `min`: `nan` poisons the result. -/
def npMin : EF → EF → EF
  | nan, _ => nan
  | _, nan => nan
  | fin a, fin b => fin (min a b)
  | ninf, _ => ninf
  | _, ninf => ninf
  | pinf, b => b
  | a, pinf => a

/-- The sanitization `x[np.isnan(x)] = 0.0` applied to one value. -/
def sanN (x : EF) : EF := if x.isNaN then fin 0 else x

/-- The sanitization `x[np.isinf(x)] = 0.0` applied to one value. -/
def sanI (x : EF) : EF := if x.isInf then fin 0 else x

theorem mulComm : ∀ a b : EF, mul a b = mul b a := by
  intro a b
  cases a <;> cases b <;> first
    | rfl
    | exact congrArg EF.fin (mul_comm _ _)

theorem isFinite_add {a b : EF} (ha : a.isFinite = true) (hb : b.isFinite = true) :
    (add a b).isFinite = true := by
  cases a <;> cases b <;> simp_all [isFinite, add]

theorem isFinite_sub {a b : EF} (ha : a.isFinite = true) (hb : b.isFinite = true) :
    (sub a b).isFinite = true := by
  cases a <;> cases b <;> simp_all [isFinite, sub, add, neg]

theorem isFinite_mul {a b : EF} (ha : a.isFinite = true) (hb : b.isFinite = true) :
    (mul a b).isFinite = true := by
  cases a <;> cases b <;> simp_all [isFinite, mul]

theorem isFinite_div_fin {a : EF} {q : ℚ} (ha : a.isFinite = true) (hq : q ≠ 0) :
    (div a (fin q)).isFinite = true := by
  cases a <;> simp_all [isFinite, div]

theorem beq_self_of_finite {a : EF} (ha : a.isFinite = true) : beq a a = true := by
  cases a <;> simp_all [isFinite, beq]

theorem sanI_sanN_finite (x : EF) : ((sanN x).sanI).isFinite = true := by
  cases x <;> rfl

theorem sanN_finite_of_not_inf {x : EF} (h : x.isInf = false) :
    (sanN x).isFinite = true := by
  cases x <;> simp_all [isInf, sanN, isNaN, isFinite]

end EF

/-
  Models of the external vectorized primitives (the `talib` library).  The
  spec treats these as external collaborators specified at their interface:
  an output index inside the warm-up window (look-back not yet available)
  is `nan`, later indices carry the documented formula.  They are modelled
  here as functions from row index to value; a column of the frame is the
  materialization of such a function over `List.range n`.
-/

/-- Sum of a list of extended floats (`nan`/infinity propagate). -/
def efSum (l : List EF) : EF := l.foldr EF.add (EF.fin 0)

/-- Model of `talib.SUM(xs, timeperiod=p)` at index `i`: `nan` inside the
warm-up window, otherwise the sum of the trailing window of width `p`. -/
def tlSUM (p : ℕ) (f : ℕ → EF) (i : ℕ) : EF :=
  if i + 1 < p then EF.nan
  else efSum ((List.range p).map fun j => f (i + 1 - p + j))

/-- Model of `talib.MA(xs, timeperiod=p)` at index `i`: the trailing mean,
`nan` inside the warm-up window. -/
def tlMA (p : ℕ) (f : ℕ → EF) (i : ℕ) : EF :=
  EF.div (tlSUM p f i) (EF.fin p)

/-- One trading day of one instrument, as consumed by `get_indicators`
(columns `date, open, high, low, close, volume, amount, p_change`). -/
structure Bar where
  date : ℕ
  open_ : ℚ
  high : ℚ
  low : ℚ
  close : ℚ
  volume : ℚ
  amount : ℚ
  p_change : ℚ
deriving DecidableEq, Repr

/-- Default bar used only to totalize list indexing. -/
def Bar.default : Bar := ⟨0, 0, 0, 0, 0, 0, 0, 0⟩

namespace Ind

variable (bars : List Bar)

/-- Column accessor of the raw frame, totalized with a default bar. -/
def at_ (i : ℕ) : Bar := bars.getD i Bar.default

def highQ (i : ℕ) : ℚ := (at_ bars i).high
def lowQ (i : ℕ) : ℚ := (at_ bars i).low
def closeQ (i : ℕ) : ℚ := (at_ bars i).close
def openQ (i : ℕ) : ℚ := (at_ bars i).open_
def volQ (i : ℕ) : ℚ := (at_ bars i).volume
def amtQ (i : ℕ) : ℚ := (at_ bars i).amount
def pchQ (i : ℕ) : ℚ := (at_ bars i).p_change

/-! ### CR (Capacity Ratio) chain, source lines 134-150. -/

/-- `m_price = amount / volume` (numpy float division). -/
def m_price (i : ℕ) : EF := EF.div (EF.fin (amtQ bars i)) (EF.fin (volQ bars i))

/-- `m_price_sf1 = m_price.shift(1, fill_value=0.0)`. -/
def m_price_sf1 (i : ℕ) : EF :=
  if i = 0 then EF.fin 0 else m_price bars (i - 1)

/-- `h_m = high - min(m_price_sf1, high)` (numpy rowwise min). -/
def h_m (i : ℕ) : EF :=
  EF.sub (EF.fin (highQ bars i)) (EF.npMin (m_price_sf1 bars i) (EF.fin (highQ bars i)))

/-- `m_l = m_price_sf1 - min(m_price_sf1, low)`. -/
def m_l (i : ℕ) : EF :=
  EF.sub (m_price_sf1 bars i) (EF.npMin (m_price_sf1 bars i) (EF.fin (lowQ bars i)))

def h_m_sum (i : ℕ) : EF := tlSUM 26 (h_m bars) i

def m_l_sum (i : ℕ) : EF := tlSUM 26 (m_l bars) i

/-- `cr`: the ratio `h_m_sum / m_l_sum`, NaN-sanitized, Inf-sanitized, then
scaled by 100 (source lines 141-144). -/
def cr (i : ℕ) : EF :=
  EF.mul (EF.sanI (EF.sanN (EF.div (h_m_sum bars i) (m_l_sum bars i)))) (EF.fin 100)

/-- `cr-ma1 = MA(cr, 5)`, NaN-sanitized. -/
def crma1 (i : ℕ) : EF := EF.sanN (tlMA 5 (cr bars) i)

/-- `cr-ma2 = MA(cr, 10)`, NaN-sanitized. -/
def crma2 (i : ℕ) : EF := EF.sanN (tlMA 10 (cr bars) i)

/-- `cr-ma3 = MA(cr, 20)`, NaN-sanitized. -/
def crma3 (i : ℕ) : EF := EF.sanN (tlMA 20 (cr bars) i)

/-! ### VR (Volume Ratio) chain, source lines 162-174. -/

/-- `av = np.where(p_change > 0, volume, 0)`. -/
def av (i : ℕ) : EF := if 0 < pchQ bars i then EF.fin (volQ bars i) else EF.fin 0

/-- `bv = np.where(p_change < 0, volume, 0)`. -/
def bv (i : ℕ) : EF := if pchQ bars i < 0 then EF.fin (volQ bars i) else EF.fin 0

/-- `cv = np.where(p_change == 0, volume, 0)`. -/
def cv (i : ℕ) : EF := if pchQ bars i = 0 then EF.fin (volQ bars i) else EF.fin 0

def avs (i : ℕ) : EF := tlSUM 26 (av bars) i
def bvs (i : ℕ) : EF := tlSUM 26 (bv bars) i
def cvs (i : ℕ) : EF := tlSUM 26 (cv bars) i

/-- `vr = (avs + cvs/2) / (bvs + cvs/2)`, NaN-sanitized, Inf-sanitized,
scaled by 100 (source lines 169-172). -/
def vr (i : ℕ) : EF :=
  EF.mul (EF.sanI (EF.sanN (EF.div
    (EF.add (avs bars i) (EF.div (cvs bars i) (EF.fin 2)))
    (EF.add (bvs bars i) (EF.div (cvs bars i) (EF.fin 2)))))) (EF.fin 100)

/-- `vr_6_sma = MA(vr, 6)`, NaN-sanitized. -/
def vr6 (i : ℕ) : EF := EF.sanN (tlMA 6 (vr bars) i)

/-! ### PSY chain, source lines 370-377. -/

/-- `prev_close = close.shift(1, fill_value=0.0)` (source line 177). -/
def prev_close (i : ℕ) : ℚ := if i = 0 then 0 else closeQ bars (i - 1)

/-- `price_up`: 1.0 where `close > prev_close`, else 0.0. -/
def price_up (i : ℕ) : EF :=
  if prev_close bars i < closeQ bars i then EF.fin 1 else EF.fin 0

def price_up_sum (i : ℕ) : EF := tlSUM 12 (price_up bars) i

/-- `psy = price_up_sum / 12.0`, NaN-sanitized, scaled by 100.  This field
receives sanitization (source line 375). -/
def psy (i : ℕ) : EF :=
  EF.mul (EF.sanN (EF.div (price_up_sum bars i) (EF.fin 12))) (EF.fin 100)

/-- `psyma = MA(psy, 6)`.  The source (line 377) applies no sanitization to
this column, so its warm-up rows stay `nan`. -/
def psyma (i : ℕ) : EF := tlMA 6 (psy bars) i

end Ind

namespace Ind

variable (bars : List Bar)

/-! ### ATR, source lines 185-186; model of the external `talib.ATR`
primitive (Wilder smoothing of the true range, `nan` for the first
`period` outputs). -/

/-- True range at index `i ≥ 1`:
`max(high-low, |high-prevClose|, |prevClose-low|)`. -/
def trQ (h l c : ℕ → ℚ) (i : ℕ) : ℚ :=
  max (h i - l i) (max |h i - c (i - 1)| |c (i - 1) - l i|)

/-- Wilder recursion of `talib.ATR` with period 14, `k` steps past the
seed; the seed (output index 14) is the mean of the true ranges 1..14. -/
def atrWilder (h l c : ℕ → ℚ) : ℕ → ℚ
  | 0 => (((List.range 14).map fun j => trQ h l c (j + 1)).foldr (· + ·) 0) / 14
  | k + 1 => (atrWilder h l c k * 13 + trQ h l c (14 + (k + 1))) / 14

/-- Model of `talib.ATR(high, low, close, timeperiod=14)` at index `i`. -/
def tlATR14 (h l c : ℕ → ℚ) (i : ℕ) : EF :=
  if i < 14 then EF.nan else EF.fin (atrWilder h l c (i - 14))

/-- The `atr` column: `talib.ATR` output NaN-sanitized (source line 186). -/
def atr (i : ℕ) : EF :=
  EF.sanN (tlATR14 (highQ bars) (lowQ bars) (closeQ bars) i)

end Ind

/-! ### The Supertrend recurrence (TrendBandRecurrence), source lines
298-351.  The three buffers `ub`, `lb`, `st` are populated left to right;
`st` comes from `np.empty` and is modelled as `Option EF`, with `none`
standing for an index the loop never assigned (uninitialized storage). -/

/-- `m_atr = atr * 3` (source line 299). -/
def m_atr (atr : ℕ → EF) (i : ℕ) : EF := EF.mul (atr i) (EF.fin 3)

/-- `hl_avg = (high + low) / 2.0` (source line 300). -/
def hl_avg (high low : ℕ → EF) (i : ℕ) : EF :=
  EF.div (EF.add (high i) (low i)) (EF.fin 2)

/-- `b_ub = hl_avg + m_atr` (source line 301), the raw upper band. -/
def b_ub (high low atr : ℕ → EF) (i : ℕ) : EF :=
  EF.add (hl_avg high low i) (m_atr atr i)

/-- `b_lb = hl_avg - m_atr` (source line 302), the raw lower band. -/
def b_lb (high low atr : ℕ → EF) (i : ℕ) : EF :=
  EF.sub (hl_avg high low i) (m_atr atr i)

/-- The `ub` buffer of the Supertrend loop (source lines 309, 326-329):
row 0 takes the raw band; row `i+1` takes the raw band when it tightened
or when the previous close broke above the carried band. -/
def stUB (bub close : ℕ → EF) : ℕ → EF
  | 0 => bub 0
  | i + 1 =>
      if EF.lt (bub (i + 1)) (stUB bub close i) || EF.gt (close i) (stUB bub close i)
      then bub (i + 1) else stUB bub close i

/-- The `lb` buffer of the Supertrend loop (source lines 310, 332-335). -/
def stLB (blb close : ℕ → EF) : ℕ → EF
  | 0 => blb 0
  | i + 1 =>
      if EF.gt (blb (i + 1)) (stLB blb close i) || EF.lt (close i) (stLB blb close i)
      then blb (i + 1) else stLB blb close i

/-- The `st` buffer of the Supertrend loop (source lines 311-314, 337-347).
Float comparisons are IEEE (`EF.beq`); when the previous trend value
matches neither carried band the loop body assigns nothing and the slot
keeps its `np.empty` garbage, modelled as `none`. -/
def stLine (bub blb close : ℕ → EF) : ℕ → Option EF
  | 0 =>
      if EF.le (close 0) (stUB bub close 0) then some (stUB bub close 0)
      else some (stLB blb close 0)
  | i + 1 =>
      match stLine bub blb close i with
      | none => none
      | some s =>
          if EF.beq s (stUB bub close i) then
            (if EF.le (close (i + 1)) (stUB bub close (i + 1))
             then some (stUB bub close (i + 1))
             else some (stLB blb close (i + 1)))
          else if EF.beq s (stLB blb close i) then
            (if EF.gt (close (i + 1)) (stLB blb close (i + 1))
             then some (stLB blb close (i + 1))
             else some (stUB bub close (i + 1)))
          else none

namespace Ind

variable (bars : List Bar)

/-- `high` column lifted to extended floats. -/
def highF (i : ℕ) : EF := EF.fin (highQ bars i)

/-- `low` column lifted to extended floats. -/
def lowF (i : ℕ) : EF := EF.fin (lowQ bars i)

/-- `close` column lifted to extended floats. -/
def closeF (i : ℕ) : EF := EF.fin (closeQ bars i)

/-- The raw upper band of this frame. -/
def bubF : ℕ → EF := b_ub (highF bars) (lowF bars) (atr bars)

/-- The raw lower band of this frame. -/
def blbF : ℕ → EF := b_lb (highF bars) (lowF bars) (atr bars)

end Ind

/-- `xs.tail(n)` of pandas: keep the last `n` rows. -/
def listTail (n : ℕ) (xs : List α) : List α := xs.drop (xs.length - n)

/-- Derived frame: the modelled indicator columns of `get_indicators`
(one value per input row; the `supertrend` column is `Option`-valued
because its buffer starts uninitialized, see `stLine`). -/
structure DFrame where
  dates : List ℕ
  psy : List EF
  psyma : List EF
  cr : List EF
  crma1 : List EF
  crma2 : List EF
  crma3 : List EF
  vr : List EF
  vr6 : List EF
  atr : List EF
  supertrend_ub : List EF
  supertrend_lb : List EF
  supertrend : List (Option EF)
deriving DecidableEq, Repr

/-- Row count of a derived frame. -/
def DFrame.nrows (df : DFrame) : ℕ := df.dates.length

/-- `df.tail(n)`: keep the last `n` rows of every column. -/
def DFrame.tailn (n : ℕ) (df : DFrame) : DFrame where
  dates := listTail n df.dates
  psy := listTail n df.psy
  psyma := listTail n df.psyma
  cr := listTail n df.cr
  crma1 := listTail n df.crma1
  crma2 := listTail n df.crma2
  crma3 := listTail n df.crma3
  vr := listTail n df.vr
  vr6 := listTail n df.vr6
  atr := listTail n df.atr
  supertrend_ub := listTail n df.supertrend_ub
  supertrend_lb := listTail n df.supertrend_lb
  supertrend := listTail n df.supertrend

/-- Materialize an index function as a column over `n` rows. -/
def colOf (n : ℕ) (f : ℕ → EF) : List EF := (List.range n).map f

/-- The indicator computation body of `get_indicators` (the `with
np.errstate` block): every modelled column is derived over the windowed
series, one value per row. -/
def computeIndicators (bars : List Bar) : DFrame :=
  { dates := bars.map (·.date)
    psy := colOf bars.length (Ind.psy bars)
    psyma := colOf bars.length (Ind.psyma bars)
    cr := colOf bars.length (Ind.cr bars)
    crma1 := colOf bars.length (Ind.crma1 bars)
    crma2 := colOf bars.length (Ind.crma2 bars)
    crma3 := colOf bars.length (Ind.crma3 bars)
    vr := colOf bars.length (Ind.vr bars)
    vr6 := colOf bars.length (Ind.vr6 bars)
    atr := colOf bars.length (Ind.atr bars)
    supertrend_ub := colOf bars.length (stUB (Ind.bubF bars) (Ind.closeF bars))
    supertrend_lb := colOf bars.length (stLB (Ind.blbF bars) (Ind.closeF bars))
    supertrend :=
      (List.range bars.length).map
        (stLine (Ind.bubF bars) (Ind.blbF bars) (Ind.closeF bars)) }

/-- The pre-computation windowing of `get_indicators` (source lines
87-98): filter `date <= end_date` when given, then keep the last
`calc_threshold` rows when given. -/
def windowBars (bars : List Bar) (end_date : Option ℕ) (calc_threshold : Option ℕ) :
    List Bar :=
  let d1 := match end_date with
    | some e => bars.filter (fun b => b.date ≤ e)
    | none => bars
  match calc_threshold with
  | some c => listTail c d1
  | none => d1

/-- Model of `get_indicators(data, end_date, threshold, calc_threshold)`
(source lines 87-481): pre-slice, compute all modelled columns, then keep
the last `threshold` rows. -/
def getIndicators (bars : List Bar) (end_date : Option ℕ) (threshold : Option ℕ)
    (calc_threshold : Option ℕ) : DFrame :=
  let df := computeIndicators (windowBars bars end_date calc_threshold)
  match threshold with
  | some t => df.tailn t
  | none => df

/-- Column lookup by source column name (`idr_data[name]`); unknown names
raise `KeyError`, modelled as `none`.  Plain columns are wrapped in `some`
cell by cell so all columns share the `Option`-cell shape of
`supertrend`. -/
def DFrame.getCol (df : DFrame) : String → Option (List (Option EF))
  | "psy" => some (df.psy.map some)
  | "psyma" => some (df.psyma.map some)
  | "cr" => some (df.cr.map some)
  | "cr-ma1" => some (df.crma1.map some)
  | "cr-ma2" => some (df.crma2.map some)
  | "cr-ma3" => some (df.crma3.map some)
  | "vr" => some (df.vr.map some)
  | "vr_6_sma" => some (df.vr6.map some)
  | "atr" => some (df.atr.map some)
  | "supertrend_ub" => some (df.supertrend_ub.map some)
  | "supertrend_lb" => some (df.supertrend_lb.map some)
  | "supertrend" => some df.supertrend
  | _ => none

/-- One cell of the snapshot row: the date, the instrument code, or a
numeric value. -/
inductive RVal where
  | d : ℕ → RVal
  | s : String → RVal
  | v : EF → RVal
deriving DecidableEq, Repr

/-- The zero-filled fallback row of `get_indicator`: identity fields from
the request, every requested indicator field 0. -/
def zeroRow (end_date : ℕ) (code : String) (ncols : ℕ) : List RVal :=
  RVal.d end_date :: RVal.s code :: List.replicate ncols (RVal.v (EF.fin 0))

/-- The extraction loop of `get_indicator` (source lines 567-574):
`idr_data[col].tail(1).values[0]` for each requested column, replacing
Inf/NaN by 0.  Any lookup failure (`KeyError`, `IndexError` on an empty
frame, a read of an unassigned cell) is an exception, modelled as
`none`. -/
def extractLast (df : DFrame) : List String → Option (List EF)
  | [] => some []
  | c :: rest =>
      match df.getCol c with
      | none => none
      | some col =>
          match col.getLast? with
          | none => none
          | some cell =>
              match cell with
              | none => none
              | some v =>
                  match extractLast df rest with
                  | none => none
                  | some vs =>
                      some ((if v.isInf || v.isNaN then EF.fin 0 else v) :: vs)

/-- The effective as-of date of `get_indicator` (source lines 543-546):
the `date` argument when given, else the first component of
`code_name`. -/
def endDateOf (code_name : ℕ × String) (date : Option ℕ) : ℕ :=
  match date with
  | none => code_name.1
  | some d => d

/-- Model of `get_indicator(code_name, data, stock_column, date,
calc_threshold)` (source lines 542-579).  The indicator pipeline it calls
at source line 558 is passed explicitly as `pipe` (the production value is
`some ∘ getIndicators`; `pipe` returning `none` is `get_indicators`
swallowing an exception and returning `None`).  The overall `except`
handler returning `None` is the `none` result. -/
def get_indicator (pipe : List Bar → Option ℕ → Option ℕ → Option ℕ → Option DFrame)
    (code_name : ℕ × String) (data : List Bar) (stock_column : List String)
    (date : Option ℕ) (calc_threshold : Option ℕ) : Option (List RVal) :=
  let end_date := endDateOf code_name date
  let code := code_name.2
  let ncols := stock_column.length - 2
  if data.length ≤ 1 then
    some (zeroRow end_date code ncols)
  else
    match pipe data (some end_date) (some 1) calc_threshold with
    | none => some (zeroRow end_date code ncols)
    | some df =>
        match extractLast df (stock_column.drop 2) with
        | some vs => some (RVal.d end_date :: RVal.s code :: vs.map RVal.v)
        | none => none

/-- The production pipeline passed to `get_indicator`: the (total)
model of `get_indicators`. -/
def pipeModel (bars : List Bar) (e t c : Option ℕ) : Option DFrame :=
  some (getIndicators bars e t c)

/-! ### KDJ step, source lines 113-119: the raw `talib.STOCH` outputs
(slow K and slow D, arbitrary here since the primitive is external) are
NaN-sanitized and J is derived as `3 * kdjk - 2 * kdjd`. -/

/-- The sanitized K column. -/
def kdjk (rawK : List EF) : List EF := rawK.map EF.sanN

/-- The sanitized D column. -/
def kdjd (rawD : List EF) : List EF := rawD.map EF.sanN

/-- The J column: `3 * kdjk - 2 * kdjd` elementwise (source line 119). -/
def kdjj (rawK rawD : List EF) : List EF :=
  List.zipWith (fun k d => EF.sub (EF.mul (EF.fin 3) k) (EF.mul (EF.fin 2) d))
    (kdjk rawK) (kdjd rawD)

/-! ### Pattern classification module,
`instock/core/pattern/pattern_recognitions.py`.  The file defines
`get_pattern_recognitions` twice; the second definition rebinds the
module-level name. -/

/-- A bar as consumed by the pattern engine (`date, open, high, low,
close`). -/
structure PBar where
  date : ℕ
  open_ : ℚ
  high : ℚ
  low : ℚ
  close : ℚ
deriving DecidableEq, Repr

/-- A pattern classifier: a 4-array-in, 1-array-out function over
open/high/low/close that may raise (the error carries its message). -/
abbrev Classifier : Type := List ℚ → List ℚ → List ℚ → List ℚ → Except String (List Int)

/-- A pattern result frame: the windowed bars plus the pattern columns
that were successfully produced, in insertion order. -/
structure PFrame where
  rows : List PBar
  cols : List (String × List Int)
deriving DecidableEq, Repr

/-- Pre-computation windowing of the batch pattern function (source lines
69-78), identical in shape to the indicator one. -/
def windowPBars (bars : List PBar) (end_date : Option ℕ) (calc_threshold : Option ℕ) :
    List PBar :=
  let d1 := match end_date with
    | some e => bars.filter (fun b => b.date ≤ e)
    | none => bars
  match calc_threshold with
  | some c => listTail c d1
  | none => d1

/-- Application of one classifier to the windowed open/high/low/close
arrays (source line 82). -/
def runClassifier (d2 : List PBar) (f : Classifier) : Except String (List Int) :=
  f (d2.map (·.open_)) (d2.map (·.high)) (d2.map (·.low)) (d2.map (·.close))

/-- The classifier loop (source lines 80-84): each classifier runs inside
its own `try`, a raising classifier contributes no column (`except: pass`)
and the loop continues with the rest. -/
def patternCols (d2 : List PBar) (sc : List (String × Classifier)) :
    List (String × List Int) :=
  sc.filterMap fun kf =>
    match runClassifier d2 kf.2 with
    | .ok v => some (kf.1, v)
    | .error _ => none

/-- The FIRST definition of `get_pattern_recognitions` (source lines
11-92): window, run every classifier independently, return `None` on an
empty frame, else keep the last `threshold` rows. -/
def get_pattern_recognitions_v1 (data : List PBar) (sc : List (String × Classifier))
    (end_date : Option ℕ) (threshold : Option ℕ) (calc_threshold : Option ℕ) :
    Option PFrame :=
  let d2 := windowPBars data end_date calc_threshold
  let cols := patternCols d2 sc
  if d2.length = 0 then none
  else
    match threshold with
    | some t => some ⟨listTail t d2, cols.map fun kv => (kv.1, listTail t kv.2)⟩
    | none => some ⟨d2, cols⟩

/-- Python runtime errors relevant to the second definition. -/
inductive PyErr where
  | nameError : String → PyErr
  | unboundLocal : String → PyErr
deriving DecidableEq, Repr

/-- `UnboundLocalError` is a subclass of `NameError` in Python, so both
constructors denote a `NameError`. -/
def PyErr.isNameError : PyErr → Bool
  | nameError _ => true
  | unboundLocal _ => true

/-- The names bound at module level in `pattern_recognitions.py` (its
imports and its one surviving `def`).  `date` and `code_name` are not
among them. -/
def patternModuleGlobals : List String :=
  ["pd", "logging", "Dict", "Optional", "Union", "__author__", "__date__",
   "get_pattern_recognitions"]

/-- The local variables of the SECOND `get_pattern_recognitions`
definition: names assigned somewhere in its body that are not parameters
(`end_date` is a parameter, so line 156 rebinds a parameter).  Reading one
of these before its assignment is an `UnboundLocalError`; reading a name
that is neither a local nor a module global is a `NameError`. -/
def patternV2Locals : List String := ["code", "stockStat", "isHas", "k", "e"]

/-- Python name resolution inside the second definition, given the set of
locals assigned so far. -/
def loadName (assigned : List String) (n : String) : Except PyErr Unit :=
  if n ∈ patternV2Locals then
    (if n ∈ assigned then .ok () else .error (.unboundLocal n))
  else if n ∈ patternModuleGlobals then .ok ()
  else .error (.nameError n)

/-- The row type the second definition would return on success
(unreachable). -/
def PatRow : Type := List (String × Int)

/-- The `try` block of the second definition.  Its first statement (source
line 155, `if date is None:`) evaluates the name `date`, which is neither
a parameter, nor assigned in the body, nor a module global, so execution
cannot get past it; the `.ok` continuation is unreachable. -/
def patternV2Try : Except PyErr (Option PatRow) :=
  match loadName [] "date" with
  | .error e => .error e
  | .ok _ => .ok none

/-- The `except` handler of the second definition (source lines 182-183):
its f-string reads the local `code`, which is assigned only at source
line 160 — after the failure point — so the handler itself raises an
`UnboundLocalError` that nothing catches. -/
def patternV2Handler : Except PyErr (Option PatRow) :=
  match loadName [] "code" with
  | .error e => .error e
  | .ok _ => .ok none

/-- The SECOND definition of `get_pattern_recognitions` (source lines
95-185): run the `try` block; on an exception run the handler, whose own
exception propagates.  Its parameters are never reached. -/
def get_pattern_recognitions_v2 (_data : List PBar) (_sc : List (String × Classifier))
    (_end_date : Option ℕ) (_threshold : Option ℕ) (_calc_threshold : Option ℕ) :
    Except PyErr (Option PatRow) :=
  match patternV2Try with
  | .ok r => .ok r
  | .error _ => patternV2Handler

/-- The module-level binding: the second `def` statement rebinds the name,
so the public `get_pattern_recognitions` is the second definition. -/
def get_pattern_recognitions_module := get_pattern_recognitions_v2

/-! ### Claim-side formulas and concrete inputs used by the theorems. -/

/-- The raw upper band as the spec writes it:
`rawUpper[i] = (high[i]+low[i])/2 + 3*atr[i]`. -/
def rawUpper (high low atr : ℕ → EF) (i : ℕ) : EF :=
  EF.add (EF.div (EF.add (high i) (low i)) (EF.fin 2)) (EF.mul (EF.fin 3) (atr i))

/-- The raw lower band as the spec writes it:
`rawLower[i] = (high[i]+low[i])/2 - 3*atr[i]`. -/
def rawLower (high low atr : ℕ → EF) (i : ℕ) : EF :=
  EF.sub (EF.div (EF.add (high i) (low i)) (EF.fin 2)) (EF.mul (EF.fin 3) (atr i))

/-- Column access in a pattern result by column name (pandas `frame[k]`):
the value of the first column named `k`, `none` when the column is
absent. -/
def colVal (cols : List (String × α)) (k : String) : Option α :=
  match cols with
  | [] => none
  | (k0, v) :: rest => if k0 = k then some v else colVal rest k

/-- The optional trailing slice applied to a pattern column by
`threshold`. -/
def tailOpt (t : Option ℕ) (v : List Int) : List Int :=
  match t with
  | some n => listTail n v
  | none => v

/-- A one-bar series. -/
def F1 : List Bar := [⟨7, 10, 12, 9, 11, 1000, 11000, 1⟩]

/-- A two-bar series (dates 1 and 2). -/
def F2 : List Bar :=
  [⟨1, 10, 12, 9, 11, 1000, 11000, 1⟩, ⟨2, 11, 13, 10, 12, 1100, 12100, 1⟩]

/-- A snapshot column list requesting the `supertrend` field. -/
def cols4 : List String := ["date", "code", "supertrend"]

/-- Concrete finite Supertrend inputs for the C3 witness. -/
def cexHigh : ℕ → EF := fun _ => EF.fin 2

def cexLow : ℕ → EF := fun _ => EF.fin 1

def cexClose : ℕ → EF := fun _ => EF.fin 1

def cexAtr : ℕ → EF := fun _ => EF.fin 0

/-- A two-bar pattern series. -/
def D5 : List PBar := [⟨1, 10, 12, 9, 11⟩, ⟨2, 11, 13, 10, 12⟩]

/-- A classifier table with one signalling classifier. -/
def SC5 : List (String × Classifier) :=
  [("X", fun o _ _ _ => .ok (o.map fun _ => 100))]

/-- A two-bar pattern series for the isolation witness. -/
def D6 : List PBar := [⟨1, 1, 2, 0, 1⟩, ⟨2, 1, 2, 0, 2⟩]

/-- A classifier that signals 100 on every row. -/
def clA : Classifier := fun o _ _ _ => .ok (o.map fun _ => 100)

/-- A classifier that always raises. -/
def clX : Classifier := fun _ _ _ _ => .error "boom"

/-- A classifier that signals 0 on every row. -/
def clB : Classifier := fun _ _ _ cl => .ok (cl.map fun _ => 0)

/-- A classifier table whose middle classifier raises. -/
def SC6 : List (String × Classifier) := [("A", clA), ("X", clX), ("B", clB)]

/-- The named column of the batch pattern result: `none` when the batch
produced no frame or the column is absent. -/
def v1ColVal (data : List PBar) (sc : List (String × Classifier))
    (e t c : Option ℕ) (k : String) : Option (List Int) :=
  match get_pattern_recognitions_v1 data sc e t c with
  | none => none
  | some fr => colVal fr.cols k

/-! ### Helper lemmas. -/

theorem listTail_length (n : ℕ) (xs : List α) :
    (listTail n xs).length = min n xs.length := by
  simp only [listTail, List.length_drop]
  omega

theorem colOf_length (n : ℕ) (f : ℕ → EF) : (colOf n f).length = n := by
  simp [colOf]

theorem mem_colOf {n : ℕ} {f : ℕ → EF} {x : EF} (hx : x ∈ colOf n f) :
    ∃ i, i < n ∧ x = f i := by
  simp only [colOf, List.mem_map, List.mem_range] at hx
  obtain ⟨i, hi, rfl⟩ := hx
  exact ⟨i, hi, rfl⟩

theorem colOf_getD {n i : ℕ} (f : ℕ → EF) (d : EF) (hi : i < n) :
    (colOf n f).getD i d = f i := by
  rw [List.getD_eq_getElem _ _ (by simpa [colOf_length] using hi)]
  simp [colOf]

theorem b_ub_eq_rawUpper (high low atr : ℕ → EF) (i : ℕ) :
    b_ub high low atr i = rawUpper high low atr i := by
  unfold b_ub rawUpper hl_avg m_atr
  rw [EF.mulComm]

theorem b_lb_eq_rawLower (high low atr : ℕ → EF) (i : ℕ) :
    b_lb high low atr i = rawLower high low atr i := by
  unfold b_lb rawLower hl_avg m_atr
  rw [EF.mulComm]

/-! ### C2 theorem. -/

/-- C2: the Supertrend recurrence computes, for row 0,
`upperBand[0] = rawUpper[0]`, `lowerBand[0] = rawLower[0]` and
`trendLine[0] = upperBand[0]` if `close[0] ≤ upperBand[0]` else
`lowerBand[0]`; and for every row `i+1`, `upperBand[i+1] = rawUpper[i+1]`
exactly when `rawUpper[i+1] < upperBand[i]` or `close[i] > upperBand[i]`
(else `upperBand[i]`), and symmetrically for the lower band, where
`rawUpper[i] = (high[i]+low[i])/2 + 3*atr[i]` and
`rawLower[i] = (high[i]+low[i])/2 - 3*atr[i]`. -/
theorem supertrend_band_recurrence (high low close atr : ℕ → EF) :
    stUB (b_ub high low atr) close 0 = rawUpper high low atr 0 ∧
    stLB (b_lb high low atr) close 0 = rawLower high low atr 0 ∧
    stLine (b_ub high low atr) (b_lb high low atr) close 0 =
      some (if EF.le (close 0) (stUB (b_ub high low atr) close 0)
            then stUB (b_ub high low atr) close 0
            else stLB (b_lb high low atr) close 0) ∧
    (∀ i : ℕ,
      stUB (b_ub high low atr) close (i + 1) =
        if EF.lt (rawUpper high low atr (i + 1)) (stUB (b_ub high low atr) close i)
            || EF.gt (close i) (stUB (b_ub high low atr) close i)
        then rawUpper high low atr (i + 1)
        else stUB (b_ub high low atr) close i) ∧
    (∀ i : ℕ,
      stLB (b_lb high low atr) close (i + 1) =
        if EF.gt (rawLower high low atr (i + 1)) (stLB (b_lb high low atr) close i)
            || EF.lt (close i) (stLB (b_lb high low atr) close i)
        then rawLower high low atr (i + 1)
        else stLB (b_lb high low atr) close i) := by
  refine ⟨?_, ?_, ?_, ?_, ?_⟩
  · show b_ub high low atr 0 = rawUpper high low atr 0
    exact b_ub_eq_rawUpper high low atr 0
  · show b_lb high low atr 0 = rawLower high low atr 0
    exact b_lb_eq_rawLower high low atr 0
  · show (if EF.le (close 0) (stUB (b_ub high low atr) close 0)
          then some (stUB (b_ub high low atr) close 0)
          else some (stLB (b_lb high low atr) close 0)) = _
    split <;> simp
  · intro i
    show (if EF.lt (b_ub high low atr (i + 1)) (stUB (b_ub high low atr) close i)
            || EF.gt (close i) (stUB (b_ub high low atr) close i)
          then b_ub high low atr (i + 1)
          else stUB (b_ub high low atr) close i) = _
    rw [b_ub_eq_rawUpper]
  · intro i
    show (if EF.gt (b_lb high low atr (i + 1)) (stLB (b_lb high low atr) close i)
            || EF.lt (close i) (stLB (b_lb high low atr) close i)
          then b_lb high low atr (i + 1)
          else stLB (b_lb high low atr) close i) = _
    rw [b_lb_eq_rawLower]

/-! ### C7 theorem. -/

/-- C7: the three windowing controls compose in a fixed order —
`get_indicators` filters `date <= end_date` first, then keeps the last
`calc_threshold` rows, then computes the indicator columns over that
slice, and only then keeps the last `threshold` rows; the output row
count equals `min(threshold, availableRows)` where `availableRows` is the
row count after the two pre-slices. -/
theorem windowing_composition (bars : List Bar) (e n c : ℕ) :
    getIndicators bars (some e) (some n) (some c) =
      DFrame.tailn n (computeIndicators
        (listTail c (bars.filter fun b => b.date ≤ e))) ∧
    (getIndicators bars (some e) (some n) (some c)).nrows =
      min n (listTail c (bars.filter fun b => b.date ≤ e)).length := by
  constructor
  · rfl
  · show (DFrame.tailn n (computeIndicators _)).nrows = _
    simp [DFrame.nrows, DFrame.tailn, computeIndicators, windowBars, listTail_length]

/-! ### C10 theorem. -/

/-- C10: the module-level name `get_pattern_recognitions` is bound to the
second definition in the file, and every call through it raises an
unhandled `NameError` (specifically an `UnboundLocalError` for `code`
raised inside the handler that caught the `NameError` for `date`), so no
pattern classification is reachable via the public name and no
`None`/frame result is ever returned. -/
theorem pattern_module_always_raises (data : List PBar)
    (sc : List (String × Classifier)) (e t c : Option ℕ) :
    get_pattern_recognitions_module data sc e t c =
      Except.error (PyErr.unboundLocal "code") ∧
    (PyErr.unboundLocal "code").isNameError = true ∧
    get_pattern_recognitions_module = get_pattern_recognitions_v2 :=
  ⟨rfl, rfl, rfl⟩

/-! ### C5: the code raises instead of implementing the
`latestPatternRow` contract. -/

/-- C5 failing input: on a well-formed two-bar series with a signalling
classifier, the public `get_pattern_recognitions` raises an unhandled
`UnboundLocalError` instead of returning the pattern row the spec
requires (or `Absent`). -/
theorem latest_pattern_row_raises :
    get_pattern_recognitions_module D5 SC5 (some 2) (some 1) none =
      Except.error (PyErr.unboundLocal "code") := rfl

/-! ### C8 theorem. -/

/-- C8: for every row of the KDJ step, the J field equals exactly three
times the sanitized K field minus two times the sanitized D field:
`kdjj[i] = 3*kdjk[i] - 2*kdjd[i]`. -/
theorem kdjj_eq (rawK rawD : List EF) (i : ℕ) (hi : i < (kdjj rawK rawD).length) :
    (kdjj rawK rawD).getD i EF.nan =
      EF.sub (EF.mul (EF.fin 3) ((kdjk rawK).getD i EF.nan))
             (EF.mul (EF.fin 2) ((kdjd rawD).getD i EF.nan)) := by
  have hlen : (kdjj rawK rawD).length = min (kdjk rawK).length (kdjd rawD).length := by
    simp [kdjj]
  have h1 : i < (kdjk rawK).length := by rw [hlen] at hi; omega
  have h2 : i < (kdjd rawD).length := by rw [hlen] at hi; omega
  rw [List.getD_eq_getElem _ _ hi, List.getD_eq_getElem _ _ h1,
    List.getD_eq_getElem _ _ h2]
  simp [kdjj]

/-- Witness for C8 at a concrete raw K/D pair. -/
theorem kdjj_eq_witness :
    (kdjj [EF.nan] [EF.fin 4]).getD 0 EF.nan =
      EF.sub (EF.mul (EF.fin 3) ((kdjk [EF.nan]).getD 0 EF.nan))
             (EF.mul (EF.fin 2) ((kdjd [EF.fin 4]).getD 0 EF.nan)) :=
  kdjj_eq [EF.nan] [EF.fin 4] 0 (by decide)

/-! ### C3: trend line totality and membership. -/

theorem b_ub_finite {high low atr : ℕ → EF}
    (hh : ∀ i, (high i).isFinite = true) (hl : ∀ i, (low i).isFinite = true)
    (ha : ∀ i, (atr i).isFinite = true) (i : ℕ) :
    (b_ub high low atr i).isFinite = true := by
  unfold b_ub hl_avg m_atr
  exact EF.isFinite_add
    (EF.isFinite_div_fin (EF.isFinite_add (hh i) (hl i)) (by norm_num))
    (EF.isFinite_mul (ha i) rfl)

theorem b_lb_finite {high low atr : ℕ → EF}
    (hh : ∀ i, (high i).isFinite = true) (hl : ∀ i, (low i).isFinite = true)
    (ha : ∀ i, (atr i).isFinite = true) (i : ℕ) :
    (b_lb high low atr i).isFinite = true := by
  unfold b_lb hl_avg m_atr
  exact EF.isFinite_sub
    (EF.isFinite_div_fin (EF.isFinite_add (hh i) (hl i)) (by norm_num))
    (EF.isFinite_mul (ha i) rfl)

theorem stUB_finite {bub close : ℕ → EF}
    (hb : ∀ i, (bub i).isFinite = true) (i : ℕ) :
    (stUB bub close i).isFinite = true := by
  induction i with
  | zero => exact hb 0
  | succ i ih =>
      simp only [stUB]
      split
      · exact hb (i + 1)
      · exact ih

theorem stLB_finite {blb close : ℕ → EF}
    (hb : ∀ i, (blb i).isFinite = true) (i : ℕ) :
    (stLB blb close i).isFinite = true := by
  induction i with
  | zero => exact hb 0
  | succ i ih =>
      simp only [stLB]
      split
      · exact hb (i + 1)
      · exact ih

/-- C3: for every finite input series and every row index of the
Supertrend recurrence, the trend line value is always assigned (the
uninitialized-storage case of the loop body is never reached) and
satisfies `trendLine[i] ∈ {upperBand[i], lowerBand[i]}`. -/
theorem supertrend_always_assigned (high low close atr : ℕ → EF)
    (hfin : ∀ i, (high i).isFinite = true ∧ (low i).isFinite = true ∧
      (close i).isFinite = true ∧ (atr i).isFinite = true) (i : ℕ) :
    (stLine (b_ub high low atr) (b_lb high low atr) close i).isSome = true ∧
    (stLine (b_ub high low atr) (b_lb high low atr) close i =
        some (stUB (b_ub high low atr) close i) ∨
      stLine (b_ub high low atr) (b_lb high low atr) close i =
        some (stLB (b_lb high low atr) close i)) := by
  have hh : ∀ j, (high j).isFinite = true := fun j => (hfin j).1
  have hl : ∀ j, (low j).isFinite = true := fun j => (hfin j).2.1
  have ha : ∀ j, (atr j).isFinite = true := fun j => (hfin j).2.2.2
  have hub : ∀ j, (stUB (b_ub high low atr) close j).isFinite = true :=
    fun j => stUB_finite (b_ub_finite hh hl ha) j
  have hlb : ∀ j, (stLB (b_lb high low atr) close j).isFinite = true :=
    fun j => stLB_finite (b_lb_finite hh hl ha) j
  induction i with
  | zero =>
      simp only [stLine]
      split
      · exact ⟨rfl, Or.inl rfl⟩
      · exact ⟨rfl, Or.inr rfl⟩
  | succ i ih =>
      obtain ⟨-, hcase⟩ := ih
      rcases hcase with h | h
      · have hbeq : EF.beq (stUB (b_ub high low atr) close i)
            (stUB (b_ub high low atr) close i) = true :=
          EF.beq_self_of_finite (hub i)
        simp only [stLine, h, hbeq, if_true]
        split
        · exact ⟨rfl, Or.inl rfl⟩
        · exact ⟨rfl, Or.inr rfl⟩
      · by_cases hb : EF.beq (stLB (b_lb high low atr) close i)
            (stUB (b_ub high low atr) close i) = true
        · simp only [stLine, h, hb, if_true]
          split
          · exact ⟨rfl, Or.inl rfl⟩
          · exact ⟨rfl, Or.inr rfl⟩
        · have hbeq : EF.beq (stLB (b_lb high low atr) close i)
              (stLB (b_lb high low atr) close i) = true :=
            EF.beq_self_of_finite (hlb i)
          rw [Bool.not_eq_true] at hb
          simp only [stLine, h, hb, hbeq, if_true, Bool.false_eq_true, if_false]
          split
          · exact ⟨rfl, Or.inr rfl⟩
          · exact ⟨rfl, Or.inl rfl⟩

/-- Witness for C3 at concrete finite inputs, row 1. -/
theorem supertrend_always_assigned_witness :
    (stLine (b_ub cexHigh cexLow cexAtr) (b_lb cexHigh cexLow cexAtr)
      cexClose 1).isSome = true ∧
    (stLine (b_ub cexHigh cexLow cexAtr) (b_lb cexHigh cexLow cexAtr) cexClose 1 =
        some (stUB (b_ub cexHigh cexLow cexAtr) cexClose 1) ∨
      stLine (b_ub cexHigh cexLow cexAtr) (b_lb cexHigh cexLow cexAtr) cexClose 1 =
        some (stLB (b_lb cexHigh cexLow cexAtr) cexClose 1)) :=
  supertrend_always_assigned cexHigh cexLow cexClose cexAtr
    (fun _ => ⟨rfl, rfl, rfl, rfl⟩) 1

/-! ### Finiteness machinery for the sanitized ratio chains. -/

theorem EF.isFinite_sanN {x : EF} (h : x.isFinite = true) :
    (EF.sanN x).isFinite = true := by
  cases x <;> simp_all [EF.sanN, EF.isNaN, EF.isFinite]

theorem EF.isInf_eq_false {x : EF} (h : x.isFinite = true) : x.isInf = false := by
  cases x <;> simp_all [EF.isInf, EF.isFinite]

theorem efSum_finite {l : List EF} (h : ∀ x ∈ l, x.isFinite = true) :
    (efSum l).isFinite = true := by
  induction l with
  | nil => rfl
  | cons a t ih =>
      simp only [efSum, List.foldr_cons]
      exact EF.isFinite_add (h a (List.mem_cons_self a t))
        (ih fun x hx => h x (List.mem_cons_of_mem a hx))

theorem sanN_tlMA_finite (p : ℕ) (hp : p ≠ 0) (f : ℕ → EF)
    (hf : ∀ j, (f j).isFinite = true) (i : ℕ) :
    (EF.sanN (tlMA p f i)).isFinite = true := by
  unfold tlMA tlSUM
  split
  · rfl
  · refine EF.isFinite_sanN (EF.isFinite_div_fin (efSum_finite ?_) ?_)
    · intro x hx
      obtain ⟨j, hj, rfl⟩ := List.mem_map.mp hx
      exact hf _
    · exact_mod_cast hp

theorem psy_finite (bars : List Bar) (i : ℕ) : (Ind.psy bars i).isFinite = true := by
  unfold Ind.psy
  refine EF.isFinite_mul ?_ rfl
  unfold Ind.price_up_sum tlSUM
  split
  · rfl
  · refine EF.isFinite_sanN (EF.isFinite_div_fin (efSum_finite ?_) (by norm_num))
    intro x hx
    obtain ⟨j, hj, rfl⟩ := List.mem_map.mp hx
    unfold Ind.price_up
    split <;> rfl

theorem cr_finite (bars : List Bar) (i : ℕ) : (Ind.cr bars i).isFinite = true := by
  unfold Ind.cr
  exact EF.isFinite_mul (EF.sanI_sanN_finite _) rfl

theorem vr_finite (bars : List Bar) (i : ℕ) : (Ind.vr bars i).isFinite = true := by
  unfold Ind.vr
  exact EF.isFinite_mul (EF.sanI_sanN_finite _) rfl

theorem crma1_finite (bars : List Bar) (i : ℕ) : (Ind.crma1 bars i).isFinite = true :=
  sanN_tlMA_finite 5 (by norm_num) _ (cr_finite bars) i

theorem crma2_finite (bars : List Bar) (i : ℕ) : (Ind.crma2 bars i).isFinite = true :=
  sanN_tlMA_finite 10 (by norm_num) _ (cr_finite bars) i

theorem crma3_finite (bars : List Bar) (i : ℕ) : (Ind.crma3 bars i).isFinite = true :=
  sanN_tlMA_finite 20 (by norm_num) _ (cr_finite bars) i

theorem vr6_finite (bars : List Bar) (i : ℕ) : (Ind.vr6 bars i).isFinite = true :=
  sanN_tlMA_finite 6 (by norm_num) _ (vr_finite bars) i

/-! ### C1: the claim fails — `psyma` (like `mfisma`, `mvwma`,
`stochrsi_d`) is assigned without any sanitization, so its warm-up rows
stay `nan` in the returned frame. -/

/-- C1 counterexample: on a concrete two-bar series, the returned frame of
`get_indicators` (default `threshold=120`) carries `nan` in the `psyma`
column at row 0, refuting "every numeric indicator field is finite". -/
theorem derived_frame_contains_nan :
    (getIndicators F2 none (some 120) none).psyma.getD 0 (EF.fin 0) = EF.nan := by
  decide

/-- C1 amended: every value of the sanitized `psy` column is finite for
every input series, but the averaged column `psyma` receives no
sanitization and every warm-up row of it (index below `min 5 rows`) is
`nan`. -/
theorem psy_sanitized_but_psyma_not (bars : List Bar) :
    (∀ x ∈ (computeIndicators bars).psy, x.isFinite = true) ∧
    (∀ i, i < min 5 bars.length →
      (computeIndicators bars).psyma.getD i (EF.fin 0) = EF.nan) := by
  constructor
  · intro x hx
    simp only [computeIndicators] at hx
    obtain ⟨i, hi, rfl⟩ := mem_colOf hx
    exact psy_finite bars i
  · intro i hi
    simp only [computeIndicators]
    rw [colOf_getD _ _ (by omega)]
    unfold Ind.psyma tlMA tlSUM
    have h6 : i + 1 < 6 := by omega
    simp [h6, EF.div]

theorem mem_colOf_self {n i : ℕ} (f : ℕ → EF) (hi : i < n) : f i ∈ colOf n f := by
  simp only [colOf, List.mem_map]
  exact ⟨i, List.mem_range.mpr hi, rfl⟩

/-- Witness for the C1 amended theorem at a concrete series and row. -/
theorem psy_sanitized_but_psyma_not_witness :
    (Ind.psy F2 0).isFinite = true ∧
    (computeIndicators F2).psyma.getD 0 (EF.fin 0) = EF.nan :=
  ⟨(psy_sanitized_but_psyma_not F2).1 (Ind.psy F2 0)
      (mem_colOf_self (Ind.psy F2) (by decide)),
   (psy_sanitized_but_psyma_not F2).2 0 (by decide)⟩

/-! ### C9: the Capacity Ratio and Volume Ratio chains never carry an
infinity. -/

/-- C9: for every input series, the `cr`, `cr-ma1`, `cr-ma2`, `cr-ma3`,
`vr` and `vr_6_sma` columns never contain `+Infinity` or `-Infinity`: the
division result is NaN- and Inf-sanitized before the `x100` scaling, and
the dependent averages only consume the sanitized values. -/
theorem cr_vr_never_infinite (bars : List Bar) :
    (∀ x ∈ (computeIndicators bars).cr, x.isInf = false) ∧
    (∀ x ∈ (computeIndicators bars).crma1, x.isInf = false) ∧
    (∀ x ∈ (computeIndicators bars).crma2, x.isInf = false) ∧
    (∀ x ∈ (computeIndicators bars).crma3, x.isInf = false) ∧
    (∀ x ∈ (computeIndicators bars).vr, x.isInf = false) ∧
    (∀ x ∈ (computeIndicators bars).vr6, x.isInf = false) := by
  refine ⟨?_, ?_, ?_, ?_, ?_, ?_⟩ <;>
    · intro x hx
      simp only [computeIndicators] at hx
      obtain ⟨i, hi, rfl⟩ := mem_colOf hx
      first
        | exact EF.isInf_eq_false (cr_finite bars i)
        | exact EF.isInf_eq_false (crma1_finite bars i)
        | exact EF.isInf_eq_false (crma2_finite bars i)
        | exact EF.isInf_eq_false (crma3_finite bars i)
        | exact EF.isInf_eq_false (vr_finite bars i)
        | exact EF.isInf_eq_false (vr6_finite bars i)

/-- Witness for C9 at a concrete series. -/
theorem cr_vr_never_infinite_witness :
    (Ind.cr F2 0).isInf = false ∧ (Ind.vr F2 0).isInf = false :=
  ⟨(cr_vr_never_infinite F2).1 (Ind.cr F2 0)
      (mem_colOf_self (Ind.cr F2) (by decide)),
   (cr_vr_never_infinite F2).2.2.2.2.1 (Ind.vr F2 0)
      (mem_colOf_self (Ind.vr F2) (by decide))⟩

/-! ### C4: the zero-fill fallback of `get_indicator`. -/

/-- C4 counterexample: with 2 total bars of which only 1 lies at or before
the as-of date, `get_indicator` does not return the zero-filled row — the
one-bar window flows through the pipeline and the `supertrend` field of
the returned row is `(high+low)/2 = 21/2`, not 0.  The degenerate-input
check of the source (line 553) tests the length of the whole passed
series, not the bars available up to the as-of date. -/
theorem get_indicator_not_zero_for_short_window :
    (F2.filter fun b => b.date ≤ 1).length = 1 ∧
    get_indicator pipeModel (1, "X") F2 cols4 none (some 90) =
      some [RVal.d 1, RVal.s "X", RVal.v (EF.fin (21 / 2))] ∧
    get_indicator pipeModel (1, "X") F2 cols4 none (some 90) ≠
      some (zeroRow 1 "X" 1) := by
  have heq : get_indicator pipeModel (1, "X") F2 cols4 none (some 90) =
      some [RVal.d 1, RVal.s "X", RVal.v (EF.fin (21 / 2))] := by
    norm_num [get_indicator, endDateOf, pipeModel, getIndicators, windowBars,
      listTail, computeIndicators, colOf, DFrame.tailn, extractLast, DFrame.getCol,
      Ind.atr, Ind.tlATR14, stLine, stUB, stLB, Ind.bubF, Ind.blbF, b_ub, b_lb,
      hl_avg, m_atr, Ind.highF, Ind.lowF, Ind.closeF, Ind.highQ, Ind.lowQ,
      Ind.closeQ, Ind.at_, F2, cols4, EF.add, EF.div, EF.mul, EF.le, EF.lt, EF.gt,
      EF.beq, EF.sanN, EF.isNaN, EF.isInf, EF.sub, EF.neg, List.getLast?,
      List.getLast, zeroRow, List.range_succ, List.range_zero, List.map_cons,
      List.map_nil, List.map_append]
  refine ⟨by decide, heq, ?_⟩
  rw [heq]
  norm_num [zeroRow, List.replicate]

/-- C4 amended: `get_indicator` returns the zero-filled identity row
exactly in the two cases the source tests — the whole passed series has
at most one row (source line 553), or the pipeline call returns no frame
(source line 561); a window that is short only relative to the as-of date
is not zero-filled. -/
theorem get_indicator_zero_fill
    (pipe : List Bar → Option ℕ → Option ℕ → Option ℕ → Option DFrame)
    (code_name : ℕ × String) (data : List Bar) (stock_column : List String)
    (date : Option ℕ) (calc_threshold : Option ℕ)
    (h : data.length ≤ 1 ∨
      pipe data (some (endDateOf code_name date)) (some 1) calc_threshold = none) :
    get_indicator pipe code_name data stock_column date calc_threshold =
      some (zeroRow (endDateOf code_name date) code_name.2
        (stock_column.length - 2)) := by
  unfold get_indicator
  by_cases hlen : data.length ≤ 1
  · simp [hlen]
  · rcases h with h | h
    · exact absurd h hlen
    · simp [hlen, h]

/-- Witness for the C4 amended theorem: a one-bar series yields the
zero-filled row. -/
theorem get_indicator_zero_fill_witness :
    get_indicator pipeModel (7, "ABC") F1 cols4 none (some 90) =
      some (zeroRow 7 "ABC" 1) :=
  get_indicator_zero_fill pipeModel (7, "ABC") F1 cols4 none (some 90)
    (Or.inl (by decide))

/-! ### C6: per-classifier failure isolation in the batch pattern
computation. -/

theorem colVal_none_of_not_key {α : Type} {cols : List (String × α)} {k : String}
    (h : k ∉ cols.map Prod.fst) : colVal cols k = none := by
  induction cols with
  | nil => rfl
  | cons kv rest ih =>
      obtain ⟨k0, v⟩ := kv
      simp only [List.map_cons, List.mem_cons, not_or] at h
      obtain ⟨h1, h2⟩ := h
      simp only [colVal]
      rw [if_neg fun he => h1 he.symm]
      exact ih h2

theorem patternCols_key_mem {d2 : List PBar} {sc : List (String × Classifier)}
    {k : String} (h : k ∈ (patternCols d2 sc).map Prod.fst) :
    k ∈ sc.map Prod.fst := by
  obtain ⟨kv2, hkv2, rfl⟩ := List.mem_map.mp h
  obtain ⟨kf, hkf, hmk⟩ := List.mem_filterMap.mp hkv2
  cases hrun : runClassifier d2 kf.2 with
  | ok v =>
      rw [hrun] at hmk
      cases hmk
      exact List.mem_map.mpr ⟨kf, hkf, rfl⟩
  | error err => rw [hrun] at hmk; cases hmk

theorem colVal_map_snd {α β : Type} (g : α → β) (cols : List (String × α))
    (k : String) :
    colVal (cols.map fun kv => (kv.1, g kv.2)) k = (colVal cols k).map g := by
  induction cols with
  | nil => rfl
  | cons kv rest ih =>
      obtain ⟨k0, v⟩ := kv
      simp only [List.map_cons, colVal]
      split
      · rfl
      · exact ih

theorem colVal_patternCols (d2 : List PBar) (sc : List (String × Classifier))
    (hnd : (sc.map Prod.fst).Nodup) {k : String} {f : Classifier}
    (hmem : (k, f) ∈ sc) :
    colVal (patternCols d2 sc) k =
      (match runClassifier d2 f with
       | .ok v => some v
       | .error _ => none) := by
  induction sc with
  | nil => cases hmem
  | cons hd rest ih =>
      obtain ⟨k0, f0⟩ := hd
      simp only [List.map_cons, List.nodup_cons] at hnd
      obtain ⟨hk0, hndr⟩ := hnd
      rcases List.mem_cons.mp hmem with heq | hmemr
      · cases heq
        simp only [patternCols, List.filterMap_cons]
        cases hrun : runClassifier d2 f with
        | ok v =>
            simp [hrun, colVal]
        | error err =>
            simp only [hrun]
            exact colVal_none_of_not_key
              fun hmem2 => hk0 (patternCols_key_mem hmem2)
      · have hkne : ¬(k0 = k) := by
          intro he
          exact hk0 (he ▸ List.mem_map.mpr ⟨(k, f), hmemr, rfl⟩)
        have ihr := ih hndr hmemr
        simp only [patternCols, List.filterMap_cons]
        cases hrun : runClassifier d2 f0 with
        | ok v =>
            simp only [hrun, colVal]
            rw [if_neg hkne]
            exact ihr
        | error err =>
            simp only [hrun]
            exact ihr

/-- C6: in the batch pattern computation, each classifier is invoked
independently over the windowed open/high/low/close arrays; one raising
classifier leaves only its own column absent from the result while every
other classifier's column is still computed and populated — the batch is
never aborted. -/
theorem classifier_isolation (data : List PBar) (sc : List (String × Classifier))
    (e t c : Option ℕ) (hnd : (sc.map Prod.fst).Nodup)
    (hne : (windowPBars data e c).length ≠ 0)
    (k : String) (f : Classifier) (hmem : (k, f) ∈ sc) :
    get_pattern_recognitions_v1 data sc e t c ≠ none ∧
    (∀ err, runClassifier (windowPBars data e c) f = .error err →
      v1ColVal data sc e t c k = none) ∧
    (∀ v, runClassifier (windowPBars data e c) f = .ok v →
      v1ColVal data sc e t c k = some (tailOpt t v)) := by
  have hcv := colVal_patternCols (windowPBars data e c) sc hnd hmem
  refine ⟨?_, ?_, ?_⟩
  · simp only [get_pattern_recognitions_v1]
    rw [if_neg hne]
    cases t <;> simp
  · intro err herr
    unfold v1ColVal
    simp only [get_pattern_recognitions_v1]
    rw [if_neg hne]
    cases t with
    | some n =>
        show colVal ((patternCols (windowPBars data e c) sc).map
          fun kv => (kv.1, listTail n kv.2)) k = none
        rw [colVal_map_snd, hcv, herr]
        rfl
    | none =>
        show colVal (patternCols (windowPBars data e c) sc) k = none
        rw [hcv, herr]
  · intro v hv
    unfold v1ColVal
    simp only [get_pattern_recognitions_v1]
    rw [if_neg hne]
    cases t with
    | some n =>
        show colVal ((patternCols (windowPBars data e c) sc).map
          fun kv => (kv.1, listTail n kv.2)) k = some (tailOpt (some n) v)
        rw [colVal_map_snd, hcv, hv]
        rfl
    | none =>
        show colVal (patternCols (windowPBars data e c) sc) k = some (tailOpt none v)
        rw [hcv, hv]
        rfl

/-- Witness for C6: with the raising classifier `clX` between two sound
ones, only column `X` is absent and `A`, `B` carry their computed (and
tail-sliced) values. -/
theorem classifier_isolation_witness :
    v1ColVal D6 SC6 none (some 1) none "X" = none ∧
    v1ColVal D6 SC6 none (some 1) none "A" = some [100] ∧
    v1ColVal D6 SC6 none (some 1) none "B" = some [0] := by
  refine ⟨?_, ?_, ?_⟩
  · exact (classifier_isolation D6 SC6 none (some 1) none (by decide) (by decide)
      "X" clX (by simp [SC6])).2.1 "boom" rfl
  · exact (classifier_isolation D6 SC6 none (some 1) none (by decide) (by decide)
      "A" clA (by simp [SC6])).2.2 [100, 100] rfl
  · exact (classifier_isolation D6 SC6 none (some 1) none (by decide) (by decide)
      "B" clB (by simp [SC6])).2.2 [0, 0] rfl
